import Mathlib

/-!
Verification of the QuickChat presence-tracking and call-signaling core.

Server side (src/server/index.cjs): the presence registry kept in the two
maps `onlineUsers` (userId to set of socket ids) and `userSockets`
(socket id to userId), mutated by the `user_join` and `disconnect`
handlers, and the signaling relay handlers `webrtc_offer`,
`webrtc_answer`, `webrtc_ice_candidate` and `webrtc_call_ended`.

Client side (the VideoCall component): the call-session logic around one
RTCPeerConnection: the ICE candidate queue, the offer and answer
listeners, renegotiation, video toggling and the cleanup performed when
the call ends.

User identities, socket identifiers, chat identifiers, session
descriptions and ICE candidate bodies are modelled as natural numbers;
JS Maps are association lists in insertion order and JS Sets are
duplicate-free lists in insertion order, which matches their iteration
semantics.
-/

namespace QuickChat

/-! ## Association lists (JS Map) and insertion-ordered sets (JS Set) -/

/-- Lookup in an association list, first match (JS `Map.get`). -/
def alookup {α : Type} (k : Nat) : List (Nat × α) → Option α
  | [] => none
  | p :: rest => if p.1 = k then some p.2 else alookup k rest

/-- JS `Map.set`: replace the entry in place if the key is present,
append a new entry otherwise. -/
def aset {α : Type} (k : Nat) (v : α) : List (Nat × α) → List (Nat × α)
  | [] => [(k, v)]
  | p :: rest => if p.1 = k then (k, v) :: rest else p :: aset k v rest

/-- JS `Map.delete`: remove the entry with the given key. -/
def aerase {α : Type} (k : Nat) : List (Nat × α) → List (Nat × α)
  | [] => []
  | p :: rest => if p.1 = k then aerase k rest else p :: aerase k rest

/-- JS `Set.add`: append if absent. -/
def sadd (s : Nat) (l : List Nat) : List Nat :=
  if s ∈ l then l else l ++ [s]

/-- JS `Set.delete` (also used for dropping a closed socket). -/
def sdel (s : Nat) : List Nat → List Nat
  | [] => []
  | x :: rest => if x = s then sdel s rest else x :: sdel s rest

/-! ## Server state: presence registry (index.cjs lines 49-50) -/

/-- The mutable server state relevant to presence and signaling:
the set of currently open sockets plus the two maps
`onlineUsers : userId -> Set socketId` and `userSockets : socketId -> userId`. -/
structure ServerState where
  connected : List Nat
  onlineUsers : List (Nat × List Nat)
  userSockets : List (Nat × Nat)
  deriving DecidableEq, Repr

def initState : ServerState := ⟨[], [], []⟩

/-- Presence status broadcasts (`socket.broadcast.emit('user_status_change', ...)`). -/
inductive StatusEvent
  | online (userId : Nat)
  | offline (userId : Nat)
  deriving DecidableEq, Repr

/-- A new transport connection (socket.io `connection`). Socket ids are
unique; connecting an already-open id is a no-op. -/
def connect (st : ServerState) (s : Nat) : ServerState :=
  if s ∈ st.connected then st
  else ⟨st.connected ++ [s], st.onlineUsers, st.userSockets⟩

/-- The `user_join` handler (index.cjs lines 56-88): add the socket to the
user's set (creating the entry if absent), record the socket-to-user
binding, and broadcast an online status change exactly when the user's
socket count after the addition is one. -/
def userJoin (st : ServerState) (u s : Nat) : ServerState × List StatusEvent :=
  if s ∈ st.connected then
    let prev := (alookup u st.onlineUsers).getD []
    let next := sadd s prev
    (⟨st.connected, aset u next st.onlineUsers, aset s u st.userSockets⟩,
     if next.length = 1 then [StatusEvent.online u] else [])
  else (st, [])

/-- The `disconnect` handler (index.cjs lines 214-251): remove this socket
from the set of the user it is bound to; if the set becomes empty, delete
the registry entry and broadcast an offline status change; finally delete
the socket-to-user binding. A socket that never announced a user is a
no-op beyond closing. -/
def disconnect (st : ServerState) (s : Nat) : ServerState × List StatusEvent :=
  if s ∈ st.connected then
    let conn := sdel s st.connected
    match alookup s st.userSockets with
    | none => (⟨conn, st.onlineUsers, st.userSockets⟩, [])
    | some u =>
      match alookup u st.onlineUsers with
      | none => (⟨conn, st.onlineUsers, aerase s st.userSockets⟩, [])
      | some conns =>
        let remaining := sdel s conns
        if remaining = [] then
          (⟨conn, aerase u st.onlineUsers, aerase s st.userSockets⟩,
           [StatusEvent.offline u])
        else
          (⟨conn, aset u remaining st.onlineUsers, aerase s st.userSockets⟩, [])
  else (st, [])

/-- One presence-affecting operation: a socket opens, announces its user,
or closes. -/
inductive SOp
  | connect (s : Nat)
  | join (u s : Nat)
  | disc (s : Nat)
  deriving DecidableEq, Repr

def stepOp (st : ServerState) : SOp → ServerState × List StatusEvent
  | SOp.connect s => (connect st s, [])
  | SOp.join u s => userJoin st u s
  | SOp.disc s => disconnect st s

def runOps (st : ServerState) : List SOp → ServerState
  | [] => st
  | op :: rest => runOps (stepOp st op).1 rest

/-- The sockets currently open and bound to user `u`: the live connection
set of a user identity. -/
def liveConns (st : ServerState) (u : Nat) : List Nat :=
  st.connected.filter (fun s => decide (alookup s st.userSockets = some u))

/-- A `user_join` that does not rebind a socket already bound to a
different user. -/
def joinOk (st : ServerState) : SOp → Bool
  | SOp.join u s =>
      match alookup s st.userSockets with
      | none => true
      | some u' => u' == u
  | _ => true

/-- No operation of the sequence rebinds an already-bound socket to a
different user. -/
def noRebind (st : ServerState) : List SOp → Bool
  | [] => true
  | op :: rest => joinOk st op && noRebind (stepOp st op).1 rest

/-- The presence registry invariant used for claims about reachable
states. -/
structure Inv (st : ServerState) : Prop where
  entriesNonempty : ∀ u l, alookup u st.onlineUsers = some l → l ≠ []
  entryLive : ∀ u l s, alookup u st.onlineUsers = some l → s ∈ l →
      alookup s st.userSockets = some u ∧ s ∈ st.connected
  sockEntry : ∀ s u, alookup s st.userSockets = some u →
      ∃ l, alookup u st.onlineUsers = some l ∧ s ∈ l

/-! ## Signaling router (index.cjs lines 165-212) -/

inductive SigKind
  | offer
  | answer
  | ice
  | callEnded
  deriving DecidableEq, Repr

/-- A socket-level emission performed by a signaling handler. -/
inductive Emit
  | forward (kind : SigKind) (socketId : Nat)
  | callFailed (socketId : Nat) (reason : String)
  deriving DecidableEq, Repr

/-- The relay behavior of the four `webrtc_*` handlers: look up the
recipient's socket set; if non-empty, forward to the first socket
(`Array.from(recipientSockets)[0]`) for offer, answer and ice candidates,
and to every socket (`forEach`) for call-ended; if empty, only the offer
handler answers the sender with `call_failed` reason "User is offline",
the others do nothing. -/
def recipientSockets (st : ServerState) (toUser : Nat) : List Nat :=
  (alookup toUser st.onlineUsers).getD []

def route (st : ServerState) (k : SigKind) (senderSocket toUser : Nat) : List Emit :=
  if 0 < (recipientSockets st toUser).length then
    match k with
    | SigKind.callEnded =>
        (recipientSockets st toUser).map (Emit.forward SigKind.callEnded)
    | SigKind.offer =>
        [Emit.forward SigKind.offer ((recipientSockets st toUser).headD 0)]
    | SigKind.answer =>
        [Emit.forward SigKind.answer ((recipientSockets st toUser).headD 0)]
    | SigKind.ice =>
        [Emit.forward SigKind.ice ((recipientSockets st toUser).headD 0)]
  else
    match k with
    | SigKind.offer => [Emit.callFailed senderSocket "User is offline"]
    | _ => []

/-! ## Client call session (the VideoCall component) -/

inductive TrackKind
  | audio
  | video
  deriving DecidableEq, Repr

/-- A local media capture track. `stopCount` counts `track.stop()`
invocations so that release-exactly-once properties can be stated. -/
structure Track where
  id : Nat
  kind : TrackKind
  enabled : Bool
  stopCount : Nat
  deriving DecidableEq, Repr

def stopTrack (t : Track) : Track :=
  { t with stopCount := t.stopCount + 1 }

inductive SignalingState
  | stable
  | haveLocalOffer
  | haveRemoteOffer
  deriving DecidableEq, Repr

/-- An RTCRtpSender: the kind and identity of the track it carries. -/
structure Sender where
  kind : TrackKind
  trackId : Nat
  deriving DecidableEq, Repr

/-- The local view of the RTCPeerConnection. `applied` is the list of ICE
candidates passed to `addIceCandidate`, in order; `closeCount` counts
`close()` invocations. -/
structure PeerConn where
  signaling : SignalingState
  remoteDescSet : Bool
  senders : List Sender
  applied : List Nat
  closeCount : Nat
  deriving DecidableEq, Repr

inductive CallStatus
  | connecting
  | ringing
  | connected
  | ended
  deriving DecidableEq, Repr

/-- A signaling message emitted by the client through the socket. -/
inductive OutMsg
  | offer (dst chatId : Nat)
  | answer (dst chatId : Nat)
  | ice (dst candidate chatId : Nat)
  | callEnded (dst chatId : Nat)
  deriving DecidableEq, Repr

/-- The component state of one call session: the peer connection (if
initialized), the `iceCandidatesQueue` ref, the `localStream` tracks, the
`callStatus` and `error` state, and the trace of emitted signaling
messages. -/
structure ClientState where
  pc : Option PeerConn
  iceCandidatesQueue : List Nat
  tracks : List Track
  status : CallStatus
  error : Option String
  sent : List OutMsg
  deriving DecidableEq, Repr

/-- The props of the VideoCall component that the call logic reads. -/
structure CallParams where
  userId : Nat
  friendId : Nat
  chatId : Nat
  isInitiator : Bool
  callType : TrackKind
  deriving DecidableEq, Repr

def appliedOf (st : ClientState) : List Nat :=
  match st.pc with
  | none => []
  | some p => p.applied

def remoteDescSetOf (st : ClientState) : Bool :=
  match st.pc with
  | none => false
  | some p => p.remoteDescSet

def sendersOf (st : ClientState) : List Sender :=
  match st.pc with
  | none => []
  | some p => p.senders

def closeCountOf (st : ClientState) : Nat :=
  match st.pc with
  | none => 0
  | some p => p.closeCount

/-- The `cleanup` callback (VideoCall lines 75-83): stop every local
track, close the peer connection if present, set status to ended. -/
def cleanup (st : ClientState) : ClientState :=
  { st with tracks := st.tracks.map stopTrack,
            pc := st.pc.map (fun p => { p with closeCount := p.closeCount + 1 }),
            status := CallStatus.ended }

/-- The mount-render `cleanup` closure. `cleanup` is a useCallback over
`localStream`, and closures created during the mount render capture the
initial null value of `localStream`, so this version stops no tracks; it
reaches the peer connection through the ref (so it is still closed) and
sets status to ended through the stable state setter. -/
def cleanupStale (st : ClientState) : ClientState :=
  { st with pc := st.pc.map (fun p => { p with closeCount := p.closeCount + 1 }),
            status := CallStatus.ended }

/-- `handleEndCall` (lines 86-93) as invoked from the current render
(the end-call button, and the socket listeners, which re-register with
the latest closure): emit `webrtc_call_ended` to the friend and run the
current `cleanup` (the `onEndCall` prop is invoked afterwards and leads
to the unmount modelled by `unmount`). -/
def handleEndCall (pr : CallParams) (st : ClientState) : ClientState :=
  cleanup { st with sent := st.sent ++ [OutMsg.callEnded pr.friendId pr.chatId] }

/-- The mount-render `handleEndCall` closure: the one captured by the
`onconnectionstatechange` handler installed in `initializePeerConnection`
during the mount render. It emits `webrtc_call_ended` but runs the
mount-render `cleanup`, which stops no tracks. -/
def handleEndCallStale (pr : CallParams) (st : ClientState) : ClientState :=
  cleanupStale { st with sent := st.sent ++ [OutMsg.callEnded pr.friendId pr.chatId] }

/-- The teardown of the media effect (lines 134-137), run when the
component unmounts. The effect ran once at mount (deps only on callType),
so the teardown holds the mount-render `cleanup`, whose captured
`localStream` is still null: it stops no tracks and only closes the peer
connection again. -/
def unmount (st : ClientState) : ClientState :=
  cleanupStale st

def initialState : ClientState :=
  ⟨none, [], [], CallStatus.connecting, none, []⟩

/-- The tracks returned by a successful `getUserMedia` for the given call
type (audio always; video additionally for a video call). -/
def gumTracks (callType : TrackKind) : List Track :=
  match callType with
  | TrackKind.audio => [⟨0, TrackKind.audio, true, 0⟩]
  | TrackKind.video => [⟨0, TrackKind.audio, true, 0⟩, ⟨1, TrackKind.video, true, 0⟩]

/-- `initializePeerConnection` (lines 190-326): create the peer
connection, add every local track as a sender, and, when this side is the
initiator, set status to ringing, create an offer, set it as the local
description and emit `webrtc_offer`. -/
def initializePeerConnection (pr : CallParams) (st : ClientState)
    (tracks : List Track) : ClientState :=
  let p : PeerConn :=
    ⟨SignalingState.stable, false, tracks.map (fun t => ⟨t.kind, t.id⟩), [], 0⟩
  if pr.isInitiator then
    { st with pc := some { p with signaling := SignalingState.haveLocalOffer },
              status := CallStatus.ringing,
              sent := st.sent ++ [OutMsg.offer pr.friendId pr.chatId] }
  else
    { st with pc := some p }

/-- `initializeMedia` (lines 96-139): on `getUserMedia` success, store the
stream and initialize the peer connection; on failure, set the error
message and move directly to ended, with no peer connection and no
signaling. -/
def initializeMedia (pr : CallParams) (gum : Option (List Track))
    (st : ClientState) : ClientState :=
  match gum with
  | some tracks => initializePeerConnection pr { st with tracks := tracks } tracks
  | none =>
      { st with error := some "Could not access camera/microphone. Please check permissions.",
                status := CallStatus.ended }

/-- The wire payload of a received `webrtc_ice_candidate` event: the
envelope carries the addressee and the chat token, but the listener reads
only `data.candidate`. -/
structure IceData where
  dst : Nat
  candidate : Nat
  chatId : Nat
  deriving DecidableEq, Repr

/-- The wire payload of a received `webrtc_offer` event (offer body left
opaque). -/
structure OfferData where
  dst : Nat
  src : Nat
  chatId : Nat
  deriving DecidableEq, Repr

/-- The wire payload of a received `webrtc_answer` event (answer body left
opaque). -/
structure AnswerData where
  dst : Nat
  src : Nat
  chatId : Nat
  deriving DecidableEq, Repr

/-- The `webrtc_ice_candidate` listener (lines 417-433): if a peer
connection exists, apply the candidate when the remote description is
already set, otherwise push it onto `iceCandidatesQueue`. -/
def onIceCandidate (st : ClientState) (d : IceData) : ClientState :=
  match st.pc with
  | none => st
  | some p =>
      if p.remoteDescSet then
        { st with pc := some { p with applied := p.applied ++ [d.candidate] } }
      else
        { st with iceCandidatesQueue := st.iceCandidatesQueue ++ [d.candidate] }

/-- The `webrtc_offer` listener (lines 342-384): when addressed to this
user and a peer connection exists, set the remote description, flush the
queued candidates in order, create and send the answer, and mark the call
connected. -/
def onOffer (pr : CallParams) (st : ClientState) (d : OfferData) : ClientState :=
  match st.pc with
  | none => st
  | some p =>
      if d.dst = pr.userId then
        { st with
            pc := some { p with remoteDescSet := true,
                                applied := p.applied ++ st.iceCandidatesQueue,
                                signaling := SignalingState.stable },
            iceCandidatesQueue := [],
            sent := st.sent ++ [OutMsg.answer d.src d.chatId],
            status := CallStatus.connected }
      else st

/-- The `webrtc_answer` listener (lines 387-414): when a peer connection
exists and the signaling state is not stable, set the remote description,
flush the queued candidates in order, and mark the call connected;
otherwise the answer is ignored. -/
def onAnswer (st : ClientState) (_d : AnswerData) : ClientState :=
  match st.pc with
  | none => st
  | some p =>
      if p.signaling = SignalingState.stable then st
      else
        { st with
            pc := some { p with remoteDescSet := true,
                                applied := p.applied ++ st.iceCandidatesQueue,
                                signaling := SignalingState.stable },
            iceCandidatesQueue := [],
            status := CallStatus.connected }

/-- The `webrtc_call_ended` listener (lines 436-440): end the call only
when the chat token matches. -/
def onRemoteCallEnded (pr : CallParams) (st : ClientState) (dataChatId : Nat) : ClientState :=
  if dataChatId = pr.chatId then handleEndCall pr st else st

/-- The `call_failed` listener (lines 333-339): record the reason and
(after the two-second timeout elapses) end the call. -/
def onCallFailed (pr : CallParams) (st : ClientState) (reason : String) : ClientState :=
  handleEndCall pr { st with error := some reason }

inductive ConnState
  | fresh
  | connecting
  | connected
  | disconnected
  | failed
  | closed
  deriving DecidableEq, Repr

def isTerminal : ConnState → Bool
  | ConnState.failed => true
  | ConnState.disconnected => true
  | ConnState.closed => true
  | _ => false

/-- The `onconnectionstatechange` handler (lines 264-273): connected
marks the call connected; failed, disconnected and closed end the call
through the mount-render `handleEndCall` that the handler captured when
it was assigned, whose cleanup stops no tracks. -/
def onConnectionStateChange (pr : CallParams) (st : ClientState) (cs : ConnState) : ClientState :=
  if cs = ConnState.connected then { st with status := CallStatus.connected }
  else if isTerminal cs then handleEndCallStale pr st
  else st

/-- The `onnegotiationneeded` handler (lines 281-304): if the signaling
state is not stable the trigger is skipped; otherwise create an offer,
set it as local description and emit exactly one `webrtc_offer`. -/
def onNegotiationNeeded (pr : CallParams) (st : ClientState) : ClientState :=
  match st.pc with
  | none => st
  | some p =>
      if p.signaling = SignalingState.stable then
        { st with pc := some { p with signaling := SignalingState.haveLocalOffer },
                  sent := st.sent ++ [OutMsg.offer pr.friendId pr.chatId] }
      else st

/-- `getSenders().find(sender => sender.track?.kind === 'video')` followed
by `replaceTrack`: swap the track of the first video sender, leaving the
sender list otherwise untouched. -/
def replaceVideoSender (newId : Nat) : List Sender → List Sender
  | [] => []
  | s :: rest =>
      if s.kind = TrackKind.video then { s with trackId := newId } :: rest
      else s :: replaceVideoSender newId rest

/-- `toggleVideo` (lines 462-515). `isVideoOff` is the component state
before the toggle. Turning video off disables the local video tracks.
Turning video on stops the old video tracks, acquires a new capture track
(`newId`), replaces the track on the existing video sender via
`replaceTrack`, and adds the new track to the local stream. No sender is
ever added or removed. -/
def toggleVideo (pr : CallParams) (st : ClientState) (isVideoOff : Bool)
    (newId : Nat) : ClientState :=
  match st.pc with
  | none => st
  | some p =>
      if pr.callType = TrackKind.video then
        if isVideoOff then
          { st with
              tracks := (st.tracks.map
                  (fun t => if t.kind = TrackKind.video then stopTrack t else t))
                ++ [⟨newId, TrackKind.video, true, 0⟩],
              pc := some { p with senders := replaceVideoSender newId p.senders } }
        else
          { st with
              tracks := st.tracks.map
                (fun t => if t.kind = TrackKind.video then { t with enabled := false } else t) }
      else st

def findVideoSender : List Sender → Option Sender
  | [] => none
  | s :: rest => if s.kind = TrackKind.video then some s else findVideoSender rest

def countVideoSenders (l : List Sender) : Nat :=
  (l.filter (fun s => s.kind == TrackKind.video)).length

/-- A socket event processed by the call session listeners. -/
inductive CEv
  | ice (d : IceData)
  | offer (d : OfferData)
  | answer (d : AnswerData)
  deriving DecidableEq, Repr

def cstep (pr : CallParams) (st : ClientState) : CEv → ClientState
  | CEv.ice d => onIceCandidate st d
  | CEv.offer d => onOffer pr st d
  | CEv.answer d => onAnswer st d

def crun (pr : CallParams) (st : ClientState) : List CEv → ClientState
  | [] => st
  | e :: rest => crun pr (cstep pr st e) rest

/-- The ICE candidates carried by a list of received events, in receipt
order. -/
def receivedIce : List CEv → List Nat
  | [] => []
  | CEv.ice d :: rest => d.candidate :: receivedIce rest
  | CEv.offer _ :: rest => receivedIce rest
  | CEv.answer _ :: rest => receivedIce rest

/-- The ICE candidates carried by a single received event. -/
def receivedIce1 : CEv → List Nat
  | CEv.ice d => [d.candidate]
  | CEv.offer _ => []
  | CEv.answer _ => []

/-- The queue discipline invariant of a call session: a peer connection
exists, nothing was applied while the remote description was absent, and
the queue is empty once the remote description is set. -/
def QInv (st : ClientState) : Prop :=
  st.pc.isSome = true ∧
  (remoteDescSetOf st = false → appliedOf st = []) ∧
  (remoteDescSetOf st = true → st.iceCandidatesQueue = [])

/-- All local capture tracks have been stopped and the peer connection
closed at least once. -/
def allStoppedAndClosed (st : ClientState) : Prop :=
  (∀ t ∈ st.tracks, 1 ≤ t.stopCount) ∧ 1 ≤ closeCountOf st

/-! ## Concrete scenario states used by the closed theorems -/

def c1ops : List SOp := [SOp.connect 0, SOp.join 1 0, SOp.join 2 0, SOp.disc 0]

def c1okOps : List SOp :=
  [SOp.connect 0, SOp.join 1 0, SOp.connect 2, SOp.join 1 2, SOp.disc 0]

/-- User 1 online with exactly the single socket 0. -/
def c5preState : ServerState := runOps initState [SOp.connect 0, SOp.join 1 0]

/-- User 1 = "A" online with exactly the single socket 10 = "c1"; user 2
= "B" has no connections. -/
def c4state : ServerState := runOps initState [SOp.connect 10, SOp.join 1 10]

/-- User 5 online with the two sockets 2 and 3 (two tabs). -/
def c3state : ServerState :=
  runOps initState [SOp.connect 2, SOp.join 5 2, SOp.connect 3, SOp.join 5 3]

def c8pr : CallParams := ⟨1, 2, 7, true, TrackKind.video⟩

/-- A connected video call: live audio and video tracks, open peer
connection. -/
def c8state : ClientState :=
  ⟨some ⟨SignalingState.stable, true,
         [⟨TrackKind.audio, 100⟩, ⟨TrackKind.video, 101⟩], [], 0⟩,
   [], [⟨100, TrackKind.audio, true, 0⟩, ⟨101, TrackKind.video, true, 0⟩],
   CallStatus.connected, none, []⟩

def c6pr : CallParams := ⟨1, 2, 7, false, TrackKind.video⟩

def c6pc : PeerConn :=
  ⟨SignalingState.stable, false, [⟨TrackKind.audio, 100⟩, ⟨TrackKind.video, 101⟩], [], 0⟩

/-- A freshly initialized responder session: no remote description yet,
empty candidate queue. -/
def c6state : ClientState :=
  ⟨some c6pc, [], [⟨100, TrackKind.audio, true, 0⟩, ⟨101, TrackKind.video, true, 0⟩],
   CallStatus.connecting, none, []⟩

/-- Two candidates arrive before the offer, one after. -/
def c6evs : List CEv :=
  [CEv.ice ⟨1, 11, 7⟩, CEv.ice ⟨1, 12, 7⟩, CEv.offer ⟨1, 2, 7⟩, CEv.ice ⟨1, 13, 7⟩]

/-- User 1 online with the two sockets 0 and 2, plus an extra open but
unbound socket 4. -/
def c5wstate : ServerState :=
  runOps initState
    [SOp.connect 0, SOp.join 1 0, SOp.connect 2, SOp.join 1 2, SOp.connect 4]

def c7pr : CallParams := ⟨1, 2, 7, true, TrackKind.video⟩

def c7pc : PeerConn :=
  ⟨SignalingState.stable, true, [⟨TrackKind.audio, 100⟩, ⟨TrackKind.video, 101⟩], [], 0⟩

/-- A connected video call about to toggle its camera. -/
def c7state : ClientState :=
  ⟨some c7pc, [], [⟨100, TrackKind.audio, true, 0⟩, ⟨101, TrackKind.video, true, 0⟩],
   CallStatus.connected, none, []⟩

/-! ## Lemmas about the map and set operations -/

theorem alookup_aset_self {α : Type} (k : Nat) (v : α) (l : List (Nat × α)) :
    alookup k (aset k v l) = some v := by
  induction l with
  | nil => simp [aset, alookup]
  | cons p rest ih =>
      by_cases h : p.1 = k
      · simp [aset, h, alookup]
      · simp [aset, h, alookup, ih]

theorem alookup_aset_ne {α : Type} (k k' : Nat) (v : α) (l : List (Nat × α))
    (h : k' ≠ k) : alookup k' (aset k v l) = alookup k' l := by
  have hkk : ¬ (k = k') := fun hh => h hh.symm
  induction l with
  | nil => simp [aset, alookup, hkk]
  | cons p rest ih =>
      by_cases hp : p.1 = k
      · simp [aset, hp, alookup, hkk]
      · simp [aset, hp, alookup, ih]

theorem alookup_aerase_self {α : Type} (k : Nat) (l : List (Nat × α)) :
    alookup k (aerase k l) = none := by
  induction l with
  | nil => simp [aerase, alookup]
  | cons p rest ih =>
      by_cases h : p.1 = k
      · simp [aerase, h, ih]
      · simp [aerase, h, alookup, ih]

theorem alookup_aerase_ne {α : Type} (k k' : Nat) (l : List (Nat × α))
    (h : k' ≠ k) : alookup k' (aerase k l) = alookup k' l := by
  have hkk : ¬ (k = k') := fun hh => h hh.symm
  induction l with
  | nil => simp [aerase]
  | cons p rest ih =>
      by_cases hp : p.1 = k
      · simp [aerase, hp, alookup, hkk, ih]
      · simp [aerase, hp, alookup, ih]

theorem sadd_ne_nil (s : Nat) (l : List Nat) : sadd s l ≠ [] := by
  unfold sadd
  by_cases h : s ∈ l
  · simp [h]
    intro hl
    rw [hl] at h
    exact absurd h (List.not_mem_nil s)
  · simp [h]

theorem mem_sadd {x s : Nat} {l : List Nat} : x ∈ sadd s l ↔ x = s ∨ x ∈ l := by
  unfold sadd
  by_cases h : s ∈ l
  · simp [h]
    intro hx
    rw [hx]
    exact h
  · simp [h, List.mem_append, or_comm]

theorem self_mem_sadd (s : Nat) (l : List Nat) : s ∈ sadd s l :=
  mem_sadd.mpr (Or.inl rfl)

theorem mem_sdel {x s : Nat} {l : List Nat} : x ∈ sdel s l ↔ x ∈ l ∧ x ≠ s := by
  induction l with
  | nil => simp [sdel]
  | cons y rest ih =>
      by_cases h : y = s
      · subst h
        have hstep : sdel y (y :: rest) = sdel y rest := by simp [sdel]
        rw [hstep, ih, List.mem_cons]
        constructor
        · rintro ⟨hr, hne⟩
          exact ⟨Or.inr hr, hne⟩
        · rintro ⟨hy | hr, hne⟩
          · exact absurd hy hne
          · exact ⟨hr, hne⟩
      · have hstep : sdel s (y :: rest) = y :: sdel s rest := by simp [sdel, h]
        rw [hstep, List.mem_cons, List.mem_cons, ih]
        constructor
        · rintro (rfl | ⟨hr, hne⟩)
          · exact ⟨Or.inl rfl, h⟩
          · exact ⟨Or.inr hr, hne⟩
        · rintro ⟨rfl | hr, hne⟩
          · exact Or.inl rfl
          · exact Or.inr ⟨hr, hne⟩

theorem length_sadd_of_not_mem {s : Nat} {l : List Nat} (h : s ∉ l) :
    (sadd s l).length = l.length + 1 := by
  simp [sadd, h]

/-! ## Branch equations for the two presence handlers -/

theorem userJoin_fst (st : ServerState) (u s : Nat) (hc : s ∈ st.connected) :
    (userJoin st u s).1 =
      ⟨st.connected,
       aset u (sadd s ((alookup u st.onlineUsers).getD [])) st.onlineUsers,
       aset s u st.userSockets⟩ := by
  unfold userJoin
  rw [if_pos hc]

theorem userJoin_snd (st : ServerState) (u s : Nat) (hc : s ∈ st.connected) :
    (userJoin st u s).2 =
      if (sadd s ((alookup u st.onlineUsers).getD [])).length = 1
      then [StatusEvent.online u] else [] := by
  unfold userJoin
  rw [if_pos hc]

theorem userJoin_not_connected (st : ServerState) (u s : Nat) (hc : s ∉ st.connected) :
    userJoin st u s = (st, []) := by
  unfold userJoin
  rw [if_neg hc]

theorem disconnect_not_connected (st : ServerState) (s : Nat) (hc : s ∉ st.connected) :
    disconnect st s = (st, []) := by
  unfold disconnect
  rw [if_neg hc]

theorem disconnect_unbound (st : ServerState) (s : Nat) (hc : s ∈ st.connected)
    (hus : alookup s st.userSockets = none) :
    disconnect st s = (⟨sdel s st.connected, st.onlineUsers, st.userSockets⟩, []) := by
  unfold disconnect
  rw [if_pos hc]
  simp only [hus]

theorem disconnect_no_entry (st : ServerState) (s u : Nat) (hc : s ∈ st.connected)
    (hus : alookup s st.userSockets = some u)
    (halo : alookup u st.onlineUsers = none) :
    disconnect st s =
      (⟨sdel s st.connected, st.onlineUsers, aerase s st.userSockets⟩, []) := by
  unfold disconnect
  rw [if_pos hc]
  simp only [hus, halo]

theorem disconnect_last (st : ServerState) (s u : Nat) (conns : List Nat)
    (hc : s ∈ st.connected) (hus : alookup s st.userSockets = some u)
    (halo : alookup u st.onlineUsers = some conns) (hrem : sdel s conns = []) :
    disconnect st s =
      (⟨sdel s st.connected, aerase u st.onlineUsers, aerase s st.userSockets⟩,
       [StatusEvent.offline u]) := by
  unfold disconnect
  rw [if_pos hc]
  simp only [hus, halo, hrem, if_pos]

theorem disconnect_rest (st : ServerState) (s u : Nat) (conns : List Nat)
    (hc : s ∈ st.connected) (hus : alookup s st.userSockets = some u)
    (halo : alookup u st.onlineUsers = some conns) (hrem : sdel s conns ≠ []) :
    disconnect st s =
      (⟨sdel s st.connected, aset u (sdel s conns) st.onlineUsers,
        aerase s st.userSockets⟩, []) := by
  unfold disconnect
  rw [if_pos hc]
  simp [hus, halo, hrem]

/-! ## Preservation of the presence registry invariant -/

theorem inv_connect (st : ServerState) (s : Nat) (h : Inv st) : Inv (connect st s) := by
  unfold connect
  by_cases hc : s ∈ st.connected
  · rw [if_pos hc]
    exact h
  · rw [if_neg hc]
    refine ⟨h.entriesNonempty, ?_, h.sockEntry⟩
    intro u l x hl hx
    obtain ⟨hux, hconn⟩ := h.entryLive u l x hl hx
    exact ⟨hux, List.mem_append_left _ hconn⟩

theorem getD_mem_entry (st : ServerState) (u x : Nat)
    (hx : x ∈ (alookup u st.onlineUsers).getD []) :
    alookup u st.onlineUsers = some ((alookup u st.onlineUsers).getD []) := by
  rcases halo : alookup u st.onlineUsers with _ | l0
  · rw [halo] at hx
    simp at hx
  · rfl

theorem inv_userJoin (st : ServerState) (u s : Nat) (h : Inv st)
    (hok : alookup s st.userSockets = none ∨ alookup s st.userSockets = some u) :
    Inv (userJoin st u s).1 := by
  by_cases hc : s ∈ st.connected
  · rw [userJoin_fst st u s hc]
    refine ⟨?_, ?_, ?_⟩
    · intro u' l' hl'
      by_cases hu : u' = u
      · rw [hu, alookup_aset_self] at hl'
        injection hl' with he
        rw [← he]
        exact sadd_ne_nil s _
      · rw [alookup_aset_ne u u' _ _ hu] at hl'
        exact h.entriesNonempty u' l' hl'
    · intro u' l' s' hl' hs'
      by_cases hu : u' = u
      · rw [hu] at hl' ⊢
        rw [alookup_aset_self] at hl'
        injection hl' with he
        rw [← he] at hs'
        rcases mem_sadd.mp hs' with he2 | hsp
        · rw [he2]
          exact ⟨alookup_aset_self s u _, hc⟩
        · have hl0 := getD_mem_entry st u s' hsp
          obtain ⟨hus', hconn'⟩ := h.entryLive u _ s' hl0 hsp
          by_cases hss : s' = s
          · rw [hss]
            exact ⟨alookup_aset_self s u _, hc⟩
          · rw [alookup_aset_ne s s' u _ hss]
            exact ⟨hus', hconn'⟩
      · rw [alookup_aset_ne u u' _ _ hu] at hl'
        obtain ⟨hus', hconn'⟩ := h.entryLive u' l' s' hl' hs'
        by_cases hss : s' = s
        · exfalso
          rw [hss] at hus'
          rcases hok with hok | hok
          · rw [hok] at hus'
            cases hus'
          · rw [hok] at hus'
            injection hus' with he
            exact absurd he.symm hu
        · rw [alookup_aset_ne s s' u _ hss]
          exact ⟨hus', hconn'⟩
    · intro s' u' hus'
      by_cases hss : s' = s
      · rw [hss, alookup_aset_self] at hus'
        injection hus' with he
        rw [hss, ← he]
        exact ⟨sadd s ((alookup u st.onlineUsers).getD []) , alookup_aset_self u _ _,
               self_mem_sadd s _⟩
      · rw [alookup_aset_ne s s' u _ hss] at hus'
        obtain ⟨l0, hl0, hmem⟩ := h.sockEntry s' u' hus'
        by_cases hu : u' = u
        · rw [hu]
          rw [hu] at hl0
          refine ⟨sadd s ((alookup u st.onlineUsers).getD []), alookup_aset_self u _ _, ?_⟩
          refine mem_sadd.mpr (Or.inr ?_)
          rw [hl0]
          exact hmem
        · refine ⟨l0, ?_, hmem⟩
          rw [alookup_aset_ne u u' _ _ hu]
          exact hl0
  · rw [userJoin_not_connected st u s hc]
    exact h

theorem inv_disconnect (st : ServerState) (s : Nat) (h : Inv st) :
    Inv (disconnect st s).1 := by
  by_cases hc : s ∈ st.connected
  · cases hus : alookup s st.userSockets with
    | none =>
        rw [disconnect_unbound st s hc hus]
        refine ⟨h.entriesNonempty, ?_, h.sockEntry⟩
        intro u l x hl hx
        obtain ⟨hux, hconn⟩ := h.entryLive u l x hl hx
        refine ⟨hux, mem_sdel.mpr ⟨hconn, ?_⟩⟩
        intro hxs
        rw [hxs, hus] at hux
        cases hux
    | some u =>
        cases halo : alookup u st.onlineUsers with
        | none =>
            obtain ⟨l0, hl0, _⟩ := h.sockEntry s u hus
            rw [halo] at hl0
            cases hl0
        | some conns =>
            by_cases hrem : sdel s conns = []
            · rw [disconnect_last st s u conns hc hus halo hrem]
              refine ⟨?_, ?_, ?_⟩
              · intro u' l' hl'
                by_cases hu : u' = u
                · rw [hu, alookup_aerase_self] at hl'
                  cases hl'
                · rw [alookup_aerase_ne u u' _ hu] at hl'
                  exact h.entriesNonempty u' l' hl'
              · intro u' l' s' hl' hs'
                by_cases hu : u' = u
                · rw [hu, alookup_aerase_self] at hl'
                  cases hl'
                · rw [alookup_aerase_ne u u' _ hu] at hl'
                  obtain ⟨hus', hconn'⟩ := h.entryLive u' l' s' hl' hs'
                  by_cases hss : s' = s
                  · exfalso
                    rw [hss, hus] at hus'
                    injection hus' with he
                    exact absurd he.symm hu
                  · rw [alookup_aerase_ne s s' _ hss]
                    exact ⟨hus', mem_sdel.mpr ⟨hconn', hss⟩⟩
              · intro s' u' hus'
                by_cases hss : s' = s
                · rw [hss, alookup_aerase_self] at hus'
                  cases hus'
                · rw [alookup_aerase_ne s s' _ hss] at hus'
                  obtain ⟨l0, hl0, hmem⟩ := h.sockEntry s' u' hus'
                  by_cases hu : u' = u
                  · exfalso
                    rw [hu, halo] at hl0
                    injection hl0 with he
                    have hin : s' ∈ sdel s conns := mem_sdel.mpr ⟨he ▸ hmem, hss⟩
                    rw [hrem] at hin
                    exact absurd hin (List.not_mem_nil s')
                  · refine ⟨l0, ?_, hmem⟩
                    rw [alookup_aerase_ne u u' _ hu]
                    exact hl0
            · rw [disconnect_rest st s u conns hc hus halo hrem]
              refine ⟨?_, ?_, ?_⟩
              · intro u' l' hl'
                by_cases hu : u' = u
                · rw [hu, alookup_aset_self] at hl'
                  injection hl' with he
                  rw [← he]
                  exact hrem
                · rw [alookup_aset_ne u u' _ _ hu] at hl'
                  exact h.entriesNonempty u' l' hl'
              · intro u' l' s' hl' hs'
                by_cases hu : u' = u
                · rw [hu, alookup_aset_self] at hl'
                  injection hl' with he
                  rw [← he] at hs'
                  obtain ⟨hsc, hsne⟩ := mem_sdel.mp hs'
                  obtain ⟨hus', hconn'⟩ := h.entryLive u conns s' halo hsc
                  rw [hu, alookup_aerase_ne s s' _ hsne]
                  exact ⟨hus', mem_sdel.mpr ⟨hconn', hsne⟩⟩
                · rw [alookup_aset_ne u u' _ _ hu] at hl'
                  obtain ⟨hus', hconn'⟩ := h.entryLive u' l' s' hl' hs'
                  by_cases hss : s' = s
                  · exfalso
                    rw [hss, hus] at hus'
                    injection hus' with he
                    exact absurd he.symm hu
                  · rw [alookup_aerase_ne s s' _ hss]
                    exact ⟨hus', mem_sdel.mpr ⟨hconn', hss⟩⟩
              · intro s' u' hus'
                by_cases hss : s' = s
                · rw [hss, alookup_aerase_self] at hus'
                  cases hus'
                · rw [alookup_aerase_ne s s' _ hss] at hus'
                  obtain ⟨l0, hl0, hmem⟩ := h.sockEntry s' u' hus'
                  by_cases hu : u' = u
                  · rw [hu] at hl0 ⊢
                    rw [halo] at hl0
                    injection hl0 with he
                    refine ⟨sdel s conns, alookup_aset_self u _ _, ?_⟩
                    exact mem_sdel.mpr ⟨he ▸ hmem, hss⟩
                  · refine ⟨l0, ?_, hmem⟩
                    rw [alookup_aset_ne u u' _ _ hu]
                    exact hl0
  · rw [disconnect_not_connected st s hc]
    exact h

theorem inv_stepOp (st : ServerState) (op : SOp) (h : Inv st)
    (hok : joinOk st op = true) : Inv (stepOp st op).1 := by
  cases op with
  | connect s => exact inv_connect st s h
  | join u s =>
      refine inv_userJoin st u s h ?_
      simp only [joinOk] at hok
      cases hus : alookup s st.userSockets with
      | none => exact Or.inl rfl
      | some u' =>
          rw [hus] at hok
          simp only [beq_iff_eq] at hok
          exact Or.inr (by rw [hok])
  | disc s => exact inv_disconnect st s h

theorem inv_runOps (st : ServerState) (ops : List SOp) (h : Inv st)
    (hok : noRebind st ops = true) : Inv (runOps st ops) := by
  induction ops generalizing st with
  | nil => exact h
  | cons op rest ih =>
      unfold noRebind at hok
      rw [Bool.and_eq_true] at hok
      exact ih (stepOp st op).1 (inv_stepOp st op h hok.1) hok.2

theorem inv_initState : Inv initState := by
  refine ⟨?_, ?_, ?_⟩
  · intro u l hl
    simp [initState, alookup] at hl
  · intro u l s hl _
    simp [initState, alookup] at hl
  · intro s u hs
    simp [initState, alookup] at hs

theorem inv_presence_iff (st : ServerState) (h : Inv st) (u : Nat) :
    (alookup u st.onlineUsers).isSome = true ↔ liveConns st u ≠ [] := by
  constructor
  · intro hs
    rw [Option.isSome_iff_exists] at hs
    obtain ⟨l, hl⟩ := hs
    have hne := h.entriesNonempty u l hl
    obtain ⟨x, hx⟩ := List.exists_mem_of_ne_nil l hne
    obtain ⟨hux, hconn⟩ := h.entryLive u l x hl hx
    intro hempty
    have hmem : x ∈ liveConns st u := by
      unfold liveConns
      rw [List.mem_filter]
      exact ⟨hconn, by simp [hux]⟩
    rw [hempty] at hmem
    exact absurd hmem (List.not_mem_nil x)
  · intro hne
    obtain ⟨x, hx⟩ := List.exists_mem_of_ne_nil _ hne
    unfold liveConns at hx
    rw [List.mem_filter] at hx
    have hux : alookup x st.userSockets = some u := by
      have hd := hx.2
      simpa using hd
    obtain ⟨l, hl, _⟩ := h.sockEntry x u hux
    rw [hl]
    rfl

/-! ## Client-side lemmas: ICE queue discipline and sender replacement -/

theorem remoteDescSetOf_some {st : ClientState} {p : PeerConn} (hp : st.pc = some p) :
    remoteDescSetOf st = p.remoteDescSet := by
  simp [remoteDescSetOf, hp]

theorem appliedOf_some {st : ClientState} {p : PeerConn} (hp : st.pc = some p) :
    appliedOf st = p.applied := by
  simp [appliedOf, hp]

theorem qinv_cstep (pr : CallParams) (st : ClientState) (e : CEv) (h : QInv st) :
    QInv (cstep pr st e) ∧
    appliedOf (cstep pr st e) ++ (cstep pr st e).iceCandidatesQueue
      = (appliedOf st ++ st.iceCandidatesQueue) ++ receivedIce1 e := by
  obtain ⟨hpc, happ, hq⟩ := h
  rcases hp : st.pc with _ | p
  · rw [hp] at hpc
    cases hpc
  · cases e with
    | ice d =>
        by_cases hrd : p.remoteDescSet = true
        · have hqe : st.iceCandidatesQueue = [] := by
            apply hq
            rw [remoteDescSetOf_some hp]
            exact hrd
          refine ⟨⟨?_, ?_, ?_⟩, ?_⟩
          · simp [cstep, onIceCandidate, hp, hrd]
          · simp [cstep, onIceCandidate, hp, hrd, remoteDescSetOf, appliedOf]
          · simp [cstep, onIceCandidate, hp, hrd, remoteDescSetOf, hqe]
          · simp [cstep, onIceCandidate, hp, hrd, appliedOf, hqe, receivedIce1,
                  appliedOf_some hp]
        · have hrdf : p.remoteDescSet = false := by
            cases hb : p.remoteDescSet
            · rfl
            · exact absurd hb hrd
          have hae : p.applied = [] := by
            have h1 : appliedOf st = [] := by
              apply happ
              rw [remoteDescSetOf_some hp]
              exact hrdf
            rw [appliedOf_some hp] at h1
            exact h1
          refine ⟨⟨?_, ?_, ?_⟩, ?_⟩
          · simp [cstep, onIceCandidate, hp, hrdf]
          · simp [cstep, onIceCandidate, hp, hrdf, remoteDescSetOf, appliedOf, hae]
          · simp [cstep, onIceCandidate, hp, hrdf, remoteDescSetOf]
          · simp [cstep, onIceCandidate, hp, hrdf, appliedOf, receivedIce1,
                  appliedOf_some hp]
    | offer d =>
        by_cases hdst : d.dst = pr.userId
        · refine ⟨⟨?_, ?_, ?_⟩, ?_⟩
          · simp [cstep, onOffer, hp, hdst]
          · simp [cstep, onOffer, hp, hdst, remoteDescSetOf, appliedOf]
          · simp [cstep, onOffer, hp, hdst, remoteDescSetOf]
          · simp [cstep, onOffer, hp, hdst, appliedOf, receivedIce1, appliedOf_some hp]
        · refine ⟨⟨?_, ?_, ?_⟩, ?_⟩
          · simp [cstep, onOffer, hp, hdst, hpc]
          · simpa [cstep, onOffer, hp, hdst] using happ
          · simpa [cstep, onOffer, hp, hdst] using hq
          · simp [cstep, onOffer, hp, hdst, receivedIce1]
    | answer d =>
        by_cases hsig : p.signaling = SignalingState.stable
        · refine ⟨⟨?_, ?_, ?_⟩, ?_⟩
          · simp [cstep, onAnswer, hp, hsig, hpc]
          · simpa [cstep, onAnswer, hp, hsig] using happ
          · simpa [cstep, onAnswer, hp, hsig] using hq
          · simp [cstep, onAnswer, hp, hsig, receivedIce1]
        · refine ⟨⟨?_, ?_, ?_⟩, ?_⟩
          · simp [cstep, onAnswer, hp, hsig]
          · simp [cstep, onAnswer, hp, hsig, remoteDescSetOf, appliedOf]
          · simp [cstep, onAnswer, hp, hsig, remoteDescSetOf]
          · simp [cstep, onAnswer, hp, hsig, appliedOf, receivedIce1, appliedOf_some hp]

theorem receivedIce_cons (e : CEv) (evs : List CEv) :
    receivedIce (e :: evs) = receivedIce1 e ++ receivedIce evs := by
  cases e <;> simp [receivedIce, receivedIce1]

theorem qinv_crun (pr : CallParams) (st : ClientState) (evs : List CEv) (h : QInv st) :
    QInv (crun pr st evs) ∧
    appliedOf (crun pr st evs) ++ (crun pr st evs).iceCandidatesQueue
      = (appliedOf st ++ st.iceCandidatesQueue) ++ receivedIce evs := by
  induction evs generalizing st with
  | nil => exact ⟨h, by simp [crun, receivedIce]⟩
  | cons e rest ih =>
      obtain ⟨h1, heq1⟩ := qinv_cstep pr st e h
      obtain ⟨h2, heq2⟩ := ih (cstep pr st e) h1
      refine ⟨h2, ?_⟩
      rw [show crun pr st (e :: rest) = crun pr (cstep pr st e) rest from rfl]
      rw [heq2, heq1, receivedIce_cons, List.append_assoc]

theorem length_replaceVideoSender (newId : Nat) (l : List Sender) :
    (replaceVideoSender newId l).length = l.length := by
  induction l with
  | nil => rfl
  | cons s rest ih =>
      by_cases hk : s.kind = TrackKind.video
      · simp [replaceVideoSender, hk]
      · simp [replaceVideoSender, hk, ih]

theorem countVideo_replaceVideoSender (newId : Nat) (l : List Sender) :
    countVideoSenders (replaceVideoSender newId l) = countVideoSenders l := by
  induction l with
  | nil => rfl
  | cons s rest ih =>
      by_cases hk : s.kind = TrackKind.video
      · simp [replaceVideoSender, hk, countVideoSenders, List.filter]
      · simp only [replaceVideoSender, if_neg hk]
        simp only [countVideoSenders, List.filter] at ih ⊢
        cases hb : (s.kind == TrackKind.video)
        · simpa [hb] using ih
        · simp only [hb]
          simp [ih]

theorem findVideo_replaceVideoSender (newId : Nat) (l : List Sender) :
    findVideoSender (replaceVideoSender newId l)
      = (findVideoSender l).map (fun s => { s with trackId := newId }) := by
  induction l with
  | nil => rfl
  | cons s rest ih =>
      by_cases hk : s.kind = TrackKind.video
      · simp [replaceVideoSender, hk, findVideoSender]
      · simp [replaceVideoSender, hk, findVideoSender, ih]

/-! ## Non-empty registry entries hold for all operation sequences -/

theorem entriesNonempty_connect (st : ServerState) (s : Nat)
    (h : ∀ u l, alookup u st.onlineUsers = some l → l ≠ []) :
    ∀ u l, alookup u (connect st s).onlineUsers = some l → l ≠ [] := by
  intro u l hl
  unfold connect at hl
  by_cases hc : s ∈ st.connected
  · rw [if_pos hc] at hl
    exact h u l hl
  · rw [if_neg hc] at hl
    exact h u l hl

theorem entriesNonempty_userJoin (st : ServerState) (u0 s : Nat)
    (h : ∀ u l, alookup u st.onlineUsers = some l → l ≠ []) :
    ∀ u l, alookup u (userJoin st u0 s).1.onlineUsers = some l → l ≠ [] := by
  intro u l hl
  by_cases hc : s ∈ st.connected
  · rw [userJoin_fst st u0 s hc] at hl
    by_cases hu : u = u0
    · rw [hu, alookup_aset_self] at hl
      injection hl with he
      rw [← he]
      exact sadd_ne_nil s _
    · rw [alookup_aset_ne u0 u _ _ hu] at hl
      exact h u l hl
  · rw [userJoin_not_connected st u0 s hc] at hl
    exact h u l hl

theorem entriesNonempty_disconnect (st : ServerState) (s : Nat)
    (h : ∀ u l, alookup u st.onlineUsers = some l → l ≠ []) :
    ∀ u l, alookup u (disconnect st s).1.onlineUsers = some l → l ≠ [] := by
  intro u l hl
  by_cases hc : s ∈ st.connected
  · cases hus : alookup s st.userSockets with
    | none =>
        rw [disconnect_unbound st s hc hus] at hl
        exact h u l hl
    | some u0 =>
        cases halo : alookup u0 st.onlineUsers with
        | none =>
            rw [disconnect_no_entry st s u0 hc hus halo] at hl
            exact h u l hl
        | some conns =>
            by_cases hrem : sdel s conns = []
            · rw [disconnect_last st s u0 conns hc hus halo hrem] at hl
              by_cases hu : u = u0
              · rw [hu, alookup_aerase_self] at hl
                cases hl
              · rw [alookup_aerase_ne u0 u _ hu] at hl
                exact h u l hl
            · rw [disconnect_rest st s u0 conns hc hus halo hrem] at hl
              by_cases hu : u = u0
              · rw [hu, alookup_aset_self] at hl
                injection hl with he
                rw [← he]
                exact hrem
              · rw [alookup_aset_ne u0 u _ _ hu] at hl
                exact h u l hl
  · rw [disconnect_not_connected st s hc] at hl
    exact h u l hl

theorem entriesNonempty_runOps (st : ServerState) (ops : List SOp)
    (h : ∀ u l, alookup u st.onlineUsers = some l → l ≠ []) :
    ∀ u l, alookup u (runOps st ops).onlineUsers = some l → l ≠ [] := by
  induction ops generalizing st with
  | nil => exact h
  | cons op rest ih =>
      refine ih (stepOp st op).1 ?_
      cases op with
      | connect s => exact entriesNonempty_connect st s h
      | join u0 s => exact entriesNonempty_userJoin st u0 s h
      | disc s => exact entriesNonempty_disconnect st s h

/-! ## Claim C1 -/

/-- Claim C1 (amended): after every finite sequence of connect, user_join
and disconnect operations, the onlineUsers registry never maps a user
identity to an empty socket set; and provided no user_join rebinds a
socket that is already bound to a different user, a user identity is
present in the registry if and only if its set of live bound connections
is non-empty. -/
theorem presence_registry_invariant (ops : List SOp) :
    (∀ u l, alookup u (runOps initState ops).onlineUsers = some l → l ≠ []) ∧
    (noRebind initState ops = true →
      ∀ u, (alookup u (runOps initState ops).onlineUsers).isSome = true ↔
        liveConns (runOps initState ops) u ≠ []) := by
  constructor
  · refine entriesNonempty_runOps initState ops ?_
    intro u l hl
    simp [initState, alookup] at hl
  · intro hnr u
    exact inv_presence_iff _ (inv_runOps initState ops inv_initState hnr) u

/-- Witness for C1: a two-tab session of user 1 where socket 0
disconnects; user 1 stays present and keeps a live connection. -/
theorem presence_registry_invariant_witness :
    noRebind initState c1okOps = true ∧
    ((alookup 1 (runOps initState c1okOps).onlineUsers).isSome = true ↔
      liveConns (runOps initState c1okOps) 1 ≠ []) :=
  ⟨by decide, (presence_registry_invariant c1okOps).2 (by decide) 1⟩

/-- Counterexample to C1 as stated: socket 0 announces user 1, then
announces user 2, then disconnects; user 1 is still present in the
registry although it no longer has any live connection. -/
theorem presence_registry_invariant_rebind_cex :
    (alookup 1 (runOps initState c1ops).onlineUsers).isSome = true ∧
    liveConns (runOps initState c1ops) 1 = [] := by decide

/-! ## Claim C2 -/

/-- Claim C2 (amended): when the recipient's socket set is empty at
forward time, no forwarding occurs for any signaling kind and nothing is
retried or queued; but only the offer handler emits a call_failed back to
the sender, with reason "User is offline"; answer, ice-candidate and
call-ended messages are dropped silently. -/
theorem route_empty_recipient (st : ServerState) (k : SigKind) (sender toUser : Nat)
    (h : recipientSockets st toUser = []) :
    (∀ (k' : SigKind) (s' : Nat), Emit.forward k' s' ∉ route st k sender toUser) ∧
    route st k sender toUser =
      (if k = SigKind.offer then [Emit.callFailed sender "User is offline"] else []) := by
  have hr : route st k sender toUser =
      (if k = SigKind.offer then [Emit.callFailed sender "User is offline"] else []) := by
    unfold route
    rw [h]
    cases k <;> simp
  refine ⟨?_, hr⟩
  intro k' s' hin
  rw [hr] at hin
  by_cases hk : k = SigKind.offer
  · rw [if_pos hk] at hin
    simp at hin
  · rw [if_neg hk] at hin
    exact absurd hin (List.not_mem_nil _)

/-- Witness for C2: user 2 has no connections; an answer addressed to it
is dropped with no emission at all. -/
theorem route_empty_recipient_witness :
    recipientSockets c4state 2 = [] ∧
    route c4state SigKind.answer 10 2 = [] :=
  ⟨by decide, by
    have h := (route_empty_recipient c4state SigKind.answer 10 2 (by decide)).2
    simpa using h⟩

/-- Counterexample to C2 as stated: for the answer kind no call_failed is
emitted at all, and for the offer kind the reason is "User is offline",
not "recipient unreachable". -/
theorem route_empty_recipient_cex :
    route initState SigKind.answer 0 1 = [] ∧
    route initState SigKind.offer 0 1 = [Emit.callFailed 0 "User is offline"] :=
  ⟨rfl, rfl⟩

/-! ## Claim C3 -/

/-- Claim C3 (confirmed): when the recipient has at least one live
connection, offer, answer and ice-candidate messages are forwarded to
exactly one socket, the first of the recipient's set, while call-ended is
forwarded to every socket of the set. -/
theorem route_nonempty_forwarding (st : ServerState) (sender toUser : Nat)
    (l : List Nat) (hl : alookup toUser st.onlineUsers = some l) (hne : l ≠ []) :
    route st SigKind.offer sender toUser = [Emit.forward SigKind.offer (l.headD 0)] ∧
    route st SigKind.answer sender toUser = [Emit.forward SigKind.answer (l.headD 0)] ∧
    route st SigKind.ice sender toUser = [Emit.forward SigKind.ice (l.headD 0)] ∧
    route st SigKind.callEnded sender toUser = l.map (Emit.forward SigKind.callEnded) := by
  have hrs : recipientSockets st toUser = l := by
    unfold recipientSockets
    rw [hl]
    rfl
  have hlen : 0 < (recipientSockets st toUser).length := by
    rw [hrs]
    exact List.length_pos.mpr hne
  refine ⟨?_, ?_, ?_, ?_⟩ <;>
    · unfold route
      rw [if_pos hlen, hrs]

/-- Witness for C3: user 5 is online on sockets 2 and 3; the offer goes
only to socket 2 (the first), call-ended goes to both. -/
theorem route_nonempty_forwarding_witness :
    route c3state SigKind.offer 9 5 = [Emit.forward SigKind.offer 2] ∧
    route c3state SigKind.callEnded 9 5 =
      [Emit.forward SigKind.callEnded 2, Emit.forward SigKind.callEnded 3] := by
  have h := route_nonempty_forwarding c3state 9 5 [2, 3] (by decide) (by decide)
  exact ⟨h.1, by simpa using h.2.2.2⟩

/-! ## Claim C4 -/

/-- Claim C4 (confirmed): user 1 has the single socket 10; user 2 has no
connections. An offer from socket 10 targeting user 2 produces exactly a
call_failed with reason "User is offline" back on socket 10, and no
forward to any socket. -/
theorem offline_offer_call_failed :
    route c4state SigKind.offer 10 2 = [Emit.callFailed 10 "User is offline"] ∧
    ∀ (k : SigKind) (s : Nat), Emit.forward k s ∉ route c4state SigKind.offer 10 2 := by
  refine ⟨rfl, ?_⟩
  intro k s hin
  rw [show route c4state SigKind.offer 10 2 = [Emit.callFailed 10 "User is offline"]
    from rfl] at hin
  simp at hin

/-! ## Claim C5 -/

/-- Claim C5 (amended): registering a genuinely new second connection for
an already-online user emits no online broadcast, a first connection for
a user with no registry entry emits exactly one, deregistering a non-last
connection emits no offline broadcast, and deregistering the last one
emits exactly one. The online broadcast however keys on the count after
registration being one, so a duplicate user_join of a user's sole
connection re-emits it without a zero-to-one transition. -/
theorem status_broadcast_transitions (st : ServerState) (u s : Nat) (l : List Nat) :
    (alookup u st.onlineUsers = some l → l ≠ [] → s ∉ l → (userJoin st u s).2 = []) ∧
    (s ∈ st.connected → alookup u st.onlineUsers = none →
      (userJoin st u s).2 = [StatusEvent.online u]) ∧
    (alookup s st.userSockets = some u → alookup u st.onlineUsers = some l →
      sdel s l ≠ [] → (disconnect st s).2 = []) ∧
    (s ∈ st.connected → alookup s st.userSockets = some u →
      alookup u st.onlineUsers = some l → sdel s l = [] →
      (disconnect st s).2 = [StatusEvent.offline u]) := by
  refine ⟨?_, ?_, ?_, ?_⟩
  · intro hl hne hns
    by_cases hc : s ∈ st.connected
    · rw [userJoin_snd st u s hc]
      have hlen : (sadd s ((alookup u st.onlineUsers).getD [])).length ≠ 1 := by
        rw [hl]
        show (sadd s l).length ≠ 1
        rw [length_sadd_of_not_mem hns]
        intro h1
        have h0 : l.length = 0 := by omega
        exact hne (List.length_eq_zero.mp h0)
      rw [if_neg hlen]
    · rw [userJoin_not_connected st u s hc]
  · intro hc halo
    rw [userJoin_snd st u s hc]
    have hlen : (sadd s ((alookup u st.onlineUsers).getD [])).length = 1 := by
      rw [halo]
      rfl
    rw [if_pos hlen]
  · intro hus halo hrem
    by_cases hc : s ∈ st.connected
    · rw [disconnect_rest st s u l hc hus halo hrem]
    · rw [disconnect_not_connected st s hc]
  · intro hc hus halo hrem
    rw [disconnect_last st s u l hc hus halo hrem]

/-- Witness for C5: a third connection of user 1 broadcasts nothing, a
non-last disconnect broadcasts nothing, the last disconnect broadcasts
offline, and a first join broadcasts online. -/
theorem status_broadcast_transitions_witness :
    (userJoin c5wstate 1 4).2 = [] ∧
    (disconnect c5wstate 0).2 = [] ∧
    (disconnect c5preState 0).2 = [StatusEvent.offline 1] ∧
    (userJoin (runOps initState [SOp.connect 0]) 1 0).2 = [StatusEvent.online 1] :=
  ⟨(status_broadcast_transitions c5wstate 1 4 [0, 2]).1 (by decide) (by decide) (by decide),
   (status_broadcast_transitions c5wstate 1 0 [0, 2]).2.2.1 (by decide) (by decide) (by decide),
   (status_broadcast_transitions c5preState 1 0 [0]).2.2.2
     (by decide) (by decide) (by decide) (by decide),
   (status_broadcast_transitions (runOps initState [SOp.connect 0]) 1 0 []).2.1
     (by decide) (by decide)⟩

/-- Counterexample to C5 as stated: user 1 is already online with exactly
socket 0 (count one, so no zero-to-one transition is possible), yet a
duplicate user_join of socket 0 re-emits the online broadcast. -/
theorem status_broadcast_duplicate_join_cex :
    alookup 1 c5preState.onlineUsers = some [0] ∧
    (userJoin c5preState 1 0).2 = [StatusEvent.online 1] := by decide

/-! ## Claim C6 -/

/-- Claim C6 (confirmed): remote ICE candidates received before the peer
connection has a remote description are queued, never applied; both the
offer listener and the answer listener flush the queue, in receipt order,
immediately after setting the remote description; and across any run of
received events no candidate is ever applied while the remote description
is absent, with the applied list followed by the queue always equal to
the candidates received, in order. -/
theorem ice_candidate_queuing (pr : CallParams) (st : ClientState) (p : PeerConn)
    (d : IceData) (od : OfferData) (ad : AnswerData) (evs : List CEv)
    (hp : st.pc = some p) (hq : QInv st) :
    (remoteDescSetOf (crun pr st evs) = false → appliedOf (crun pr st evs) = []) ∧
    (appliedOf (crun pr st evs) ++ (crun pr st evs).iceCandidatesQueue
      = (appliedOf st ++ st.iceCandidatesQueue) ++ receivedIce evs) ∧
    (p.remoteDescSet = false →
      (onIceCandidate st d).iceCandidatesQueue = st.iceCandidatesQueue ++ [d.candidate] ∧
      appliedOf (onIceCandidate st d) = appliedOf st) ∧
    (od.dst = pr.userId →
      remoteDescSetOf (onOffer pr st od) = true ∧
      appliedOf (onOffer pr st od) = appliedOf st ++ st.iceCandidatesQueue ∧
      (onOffer pr st od).iceCandidatesQueue = []) ∧
    (p.signaling ≠ SignalingState.stable →
      remoteDescSetOf (onAnswer st ad) = true ∧
      appliedOf (onAnswer st ad) = appliedOf st ++ st.iceCandidatesQueue ∧
      (onAnswer st ad).iceCandidatesQueue = []) := by
  obtain ⟨hrun, heq⟩ := qinv_crun pr st evs hq
  refine ⟨hrun.2.1, heq, ?_, ?_, ?_⟩
  · intro hrd
    constructor
    · simp [onIceCandidate, hp, hrd]
    · simp [onIceCandidate, hp, hrd, appliedOf]
  · intro hdst
    refine ⟨?_, ?_, ?_⟩ <;>
      simp [onOffer, hp, hdst, remoteDescSetOf, appliedOf, appliedOf_some hp]
  · intro hsig
    refine ⟨?_, ?_, ?_⟩ <;>
      simp [onAnswer, hp, hsig, remoteDescSetOf, appliedOf, appliedOf_some hp]

/-- Witness for C6: candidates 11 and 12 arrive before the offer, 13
after; after the run all three are applied in receipt order and the queue
is empty. -/
theorem ice_candidate_queuing_witness :
    (appliedOf (crun c6pr c6state c6evs) = [11, 12, 13] ∧
     (crun c6pr c6state c6evs).iceCandidatesQueue = []) ∧
    appliedOf (crun c6pr c6state c6evs) ++ (crun c6pr c6state c6evs).iceCandidatesQueue
      = (appliedOf c6state ++ c6state.iceCandidatesQueue) ++ receivedIce c6evs :=
  ⟨by decide,
   (ice_candidate_queuing c6pr c6state c6pc ⟨1, 11, 7⟩ ⟨1, 2, 7⟩ ⟨1, 2, 7⟩ c6evs rfl
     ⟨rfl, fun _ => rfl, fun h => absurd h (by decide)⟩).2.1⟩

/-! ## Claim C7 -/

/-- Claim C7 (confirmed): turning video back on replaces the track of the
existing video sender via replaceTrack, leaving the number of senders and
of video senders unchanged (no second video sender); the
negotiation-needed handler emits exactly one fresh offer per trigger when
the signaling state is stable, and a trigger firing while the state is
not stable is dropped, so a second concurrent trigger produces no second
offer. -/
theorem video_toggle_renegotiation (pr : CallParams) (st : ClientState) (p : PeerConn)
    (newId : Nat) (hp : st.pc = some p) (hvt : pr.callType = TrackKind.video) :
    (sendersOf (toggleVideo pr st true newId)).length = p.senders.length ∧
    countVideoSenders (sendersOf (toggleVideo pr st true newId))
      = countVideoSenders p.senders ∧
    findVideoSender (sendersOf (toggleVideo pr st true newId))
      = (findVideoSender p.senders).map (fun sd => { sd with trackId := newId }) ∧
    (p.signaling = SignalingState.stable →
      (onNegotiationNeeded pr (toggleVideo pr (toggleVideo pr st false newId) true newId)).sent
        = st.sent ++ [OutMsg.offer pr.friendId pr.chatId]) ∧
    (p.signaling ≠ SignalingState.stable → onNegotiationNeeded pr st = st) ∧
    onNegotiationNeeded pr (onNegotiationNeeded pr st) = onNegotiationNeeded pr st := by
  refine ⟨?_, ?_, ?_, ?_, ?_, ?_⟩
  · simp [toggleVideo, hp, hvt, sendersOf, length_replaceVideoSender]
  · simp [toggleVideo, hp, hvt, sendersOf, countVideo_replaceVideoSender]
  · simp [toggleVideo, hp, hvt, sendersOf, findVideo_replaceVideoSender]
  · intro hsig
    simp [toggleVideo, hp, hvt, onNegotiationNeeded, hsig]
  · intro hsig
    simp [onNegotiationNeeded, hp, hsig]
  · by_cases hsig : p.signaling = SignalingState.stable <;>
      simp [onNegotiationNeeded, hp, hsig]

/-- Witness for C7: in a connected video call, toggling video off then on
with a new capture track 202 keeps both senders, keeps a single video
sender, and the following negotiation trigger emits exactly one offer. -/
theorem video_toggle_renegotiation_witness :
    (sendersOf (toggleVideo c7pr c7state true 202)).length = 2 ∧
    countVideoSenders (sendersOf (toggleVideo c7pr c7state true 202)) = 1 ∧
    (onNegotiationNeeded c7pr
        (toggleVideo c7pr (toggleVideo c7pr c7state false 202) true 202)).sent
      = [OutMsg.offer 2 7] := by
  have h := video_toggle_renegotiation c7pr c7state c7pc 202 rfl rfl
  refine ⟨?_, ?_, ?_⟩
  · rw [h.1]
    decide
  · rw [h.2.1]
    decide
  · have h4 := h.2.2.2.1 (by decide)
    simpa using h4

/-! ## Claims C8 and C9: release of media and peer connection -/

theorem handleEndCall_release (pr : CallParams) (st : ClientState)
    (hpc : st.pc.isSome = true) :
    allStoppedAndClosed (handleEndCall pr st) ∧
    (handleEndCall pr st).status = CallStatus.ended := by
  rcases hp : st.pc with _ | p
  · rw [hp] at hpc
    cases hpc
  · refine ⟨⟨?_, ?_⟩, rfl⟩
    · intro t ht
      simp [handleEndCall, cleanup] at ht
      obtain ⟨t0, _, rfl⟩ := ht
      simp [stopTrack]
    · simp [handleEndCall, cleanup, closeCountOf, hp]

/-- Claim C8 (amended): on the local hang-up, matching webrtc_call_ended
and call_failed triggers the session transitions to ended with every
local track stopped — each exactly once, the track list becoming
`tracks.map stopTrack` — and the peer connection closed; the unmount
teardown that follows stops no further tracks but closes the peer
connection a second time. On the terminal-connection-state trigger the
session is ended and the peer connection closed, but no local track is
stopped at all, because the connectionstatechange handler holds the
mount-render cleanup whose localStream is null. -/
theorem ended_cleanup (pr : CallParams) (st : ClientState) (cs : ConnState)
    (dataChatId : Nat) (reason : String) (hpc : st.pc.isSome = true) :
    (allStoppedAndClosed (handleEndCall pr st) ∧
      (handleEndCall pr st).status = CallStatus.ended ∧
      (handleEndCall pr st).tracks = st.tracks.map stopTrack) ∧
    (dataChatId = pr.chatId →
      allStoppedAndClosed (onRemoteCallEnded pr st dataChatId) ∧
      (onRemoteCallEnded pr st dataChatId).status = CallStatus.ended) ∧
    (allStoppedAndClosed (onCallFailed pr st reason) ∧
      (onCallFailed pr st reason).status = CallStatus.ended) ∧
    (isTerminal cs = true →
      (onConnectionStateChange pr st cs).status = CallStatus.ended ∧
      1 ≤ closeCountOf (onConnectionStateChange pr st cs) ∧
      (onConnectionStateChange pr st cs).tracks = st.tracks) ∧
    ((unmount (handleEndCall pr st)).tracks = (handleEndCall pr st).tracks ∧
      closeCountOf (unmount (handleEndCall pr st))
        = closeCountOf (handleEndCall pr st) + 1) := by
  rcases hp : st.pc with _ | p
  · rw [hp] at hpc
    cases hpc
  · have hmain := handleEndCall_release pr st hpc
    refine ⟨⟨hmain.1, hmain.2, rfl⟩, ?_, ?_, ?_, ?_⟩
    · intro hchat
      unfold onRemoteCallEnded
      rw [if_pos hchat]
      exact hmain
    · unfold onCallFailed
      exact handleEndCall_release pr _ hpc
    · intro hterm
      have hne : ¬ (cs = ConnState.connected) := by
        intro he
        rw [he] at hterm
        simp [isTerminal] at hterm
      unfold onConnectionStateChange
      rw [if_neg hne, if_pos hterm]
      refine ⟨rfl, ?_, rfl⟩
      have hcc : closeCountOf (handleEndCallStale pr st) = p.closeCount + 1 := by
        simp [handleEndCallStale, cleanupStale, closeCountOf, hp]
      rw [hcc]
      omega
    · refine ⟨rfl, ?_⟩
      simp [unmount, cleanupStale, handleEndCall, cleanup, closeCountOf, hp]

/-- Witness for C8: in the concrete connected video call, a local hang-up
releases everything, a call_failed ends the session, and a terminal
connection state ends the session while leaving the tracks untouched. -/
theorem ended_cleanup_witness :
    allStoppedAndClosed (handleEndCall c8pr c8state) ∧
    (onCallFailed c8pr c8state "User is offline").status = CallStatus.ended ∧
    (onConnectionStateChange c8pr c8state ConnState.failed).tracks = c8state.tracks :=
  ⟨(ended_cleanup c8pr c8state ConnState.failed 7 "r" rfl).1.1,
   (ended_cleanup c8pr c8state ConnState.failed 7 "User is offline" rfl).2.2.1.2,
   ((ended_cleanup c8pr c8state ConnState.failed 7 "r" rfl).2.2.2.1 (by decide)).2.2⟩

/-- Counterexample to C8 as stated: a terminal connection state moves the
session to ended without stopping any local track (the handler holds the
mount-render cleanup with a null localStream), and a local hang-up
followed by the unmount teardown closes the peer connection twice — so
the release is neither unconditional across the triggers nor
exactly-once. -/
theorem ended_cleanup_stale_closure_cex :
    (onConnectionStateChange c8pr c8state ConnState.failed).status = CallStatus.ended ∧
    (onConnectionStateChange c8pr c8state ConnState.failed).tracks.map Track.stopCount
      = [0, 0] ∧
    closeCountOf (unmount (handleEndCall c8pr c8state)) = 2 := by
  decide

/-! ## Claim C9 -/

theorem cstep_pc_none (pr : CallParams) (st : ClientState) (e : CEv)
    (h : st.pc = none) : cstep pr st e = st := by
  cases e <;> simp [cstep, onIceCandidate, onOffer, onAnswer, h]

theorem crun_pc_none (pr : CallParams) (st : ClientState) (evs : List CEv)
    (h : st.pc = none) : crun pr st evs = st := by
  induction evs with
  | nil => rfl
  | cons e rest ih =>
      rw [show crun pr st (e :: rest) = crun pr (cstep pr st e) rest from rfl,
          cstep_pc_none pr st e h, ih]

/-- Claim C9 (confirmed): when getUserMedia fails, the session moves
directly to ended with a reported error, no peer connection is created,
and no signaling message is emitted then or by any later received event,
because the peer connection is only initialized and the offer only
emitted after acquisition succeeds. -/
theorem media_failure_no_signaling (pr : CallParams) (evs : List CEv) :
    (initializeMedia pr none initialState).status = CallStatus.ended ∧
    (initializeMedia pr none initialState).error.isSome = true ∧
    (initializeMedia pr none initialState).pc = none ∧
    (crun pr (initializeMedia pr none initialState) evs).sent = [] := by
  refine ⟨rfl, rfl, rfl, ?_⟩
  rw [crun_pc_none pr _ evs rfl]
  rfl

/-! ## Claim C10 -/

/-- Claim C10 (confirmed): the webrtc_ice_candidate listener reads only
the candidate body: two received payloads differing in chat token or
addressee produce identical results, and whenever a peer connection
exists the candidate is applied or queued on it unconditionally. -/
theorem ice_candidate_no_chat_check (st : ClientState) (d d' : IceData)
    (hcand : d.candidate = d'.candidate) (hpc : st.pc.isSome = true) :
    onIceCandidate st d = onIceCandidate st d' ∧
    (d.candidate ∈ appliedOf (onIceCandidate st d) ∨
     d.candidate ∈ (onIceCandidate st d).iceCandidatesQueue) := by
  rcases hp : st.pc with _ | p
  · rw [hp] at hpc
    cases hpc
  · constructor
    · simp [onIceCandidate, hp, hcand]
    · by_cases hrd : p.remoteDescSet = true
      · left
        simp [onIceCandidate, hp, hrd, appliedOf]
      · right
        have hrdf : p.remoteDescSet = false := by
          cases hb : p.remoteDescSet
          · rfl
          · exact absurd hb hrd
        simp [onIceCandidate, hp, hrdf]

/-- Witness for C10: a candidate with chat token 999 from an unrelated
call is handled identically to one with the session's token 7, and is
queued on the active peer connection. -/
theorem ice_candidate_no_chat_check_witness :
    onIceCandidate c6state ⟨1, 42, 7⟩ = onIceCandidate c6state ⟨9, 42, 999⟩ ∧
    42 ∈ (onIceCandidate c6state ⟨1, 42, 7⟩).iceCandidatesQueue := by
  have h := ice_candidate_no_chat_check c6state ⟨1, 42, 7⟩ ⟨9, 42, 999⟩ rfl rfl
  refine ⟨h.1, ?_⟩
  rcases h.2 with hmem | hmem
  · exact absurd hmem (by decide)
  · exact hmem

end QuickChat